import Mathlib

/-!
# Verification of the mail-codec-composition core

A shallow embedding, in Lean 4, of the encoding/assembly core of the
mail-codec-composition library:

* `src/data/encoded_word.rs` — the RFC 2047 encoded-word codec
  (`EncodedWord`, `encode_word`, `parse`, `decode_word`);
* `src/resource/mod.rs` — the resource model (`Embedded`,
  `EmbeddedWithCId`, content-identifier assignment);
* `src/render_template_engine/mod.rs` and `error.rs` — the template
  registry (`TemplateSpec`, `SubTemplateSpec`) and the render pipeline
  (`templates`).

ASCII strings (the Rust `InnerAscii` / `str` values handled by the codec)
are embedded as `List Nat` of byte values; text (`&str` input of
`encode_word`, the `Input` produced by `decode_word`) is embedded as its
UTF-8 byte sequence, again `List Nat`.  Stateful Rust methods (`&mut self`)
are embedded as explicit state passing: they return the updated value
alongside the Rust return value.  External collaborators that the sources
use only through their interface (the byte-level base64/quoted-printable
primitives, the encoded-word grammar validator, the path-string utilities)
are modelled from the specification; each such definition carries a doc
comment saying so.
-/

/-! ## ASCII byte constants used by the codec -/

/-- ASCII code of the question mark `?`, the encoded-word delimiter. -/
def qm : Nat := 63

/-- ASCII code of the equals sign `=`. -/
def eqs : Nat := 61

/-- The ASCII bytes of the charset name `"utf8"`. -/
def utf8name : List Nat := [117, 116, 102, 56]

/-! ## UTF-8 validity

`String::from_utf8` (Rust std, used at the end of `decode_word`) accepts
exactly the well-formed UTF-8 byte sequences: no continuation byte out of
place, no overlong forms, no surrogates, nothing above U+10FFFF.  We model
it by the standard byte-level checker. -/

/-- Is `b` a UTF-8 continuation byte (`0x80..0xBF`)? -/
def isCont (b : Nat) : Bool := 128 ≤ b && b ≤ 191

/-- Strict UTF-8 validity of a byte sequence, as checked by Rust's
`String::from_utf8`. -/
def validUtf8 : List Nat → Bool
  | [] => true
  | b :: rest =>
    if b ≤ 127 then validUtf8 rest
    else if b < 194 then false
    else if b ≤ 223 then
      match rest with
      | c1 :: r => isCont c1 && validUtf8 r
      | [] => false
    else if b ≤ 239 then
      match rest with
      | c1 :: c2 :: r =>
        isCont c1 && isCont c2 &&
        (decide (b ≠ 224) || decide (160 ≤ c1)) &&
        (decide (b ≠ 237) || decide (c1 ≤ 159)) &&
        validUtf8 r
      | _ => false
    else if b ≤ 244 then
      match rest with
      | c1 :: c2 :: c3 :: r =>
        isCont c1 && isCont c2 && isCont c3 &&
        (decide (b ≠ 240) || decide (144 ≤ c1)) &&
        (decide (b ≠ 244) || decide (c1 ≤ 143)) &&
        validUtf8 r
      | _ => false
    else false

/-! ## Base64 (external byte-level primitive)

Modelled from the spec: the byte-level base64 primitive
(`codec::base64::encoded_word_decode` and the base64 branch of
`EncodedWordEncoding::encode`) is an external collaborator specified at its
interface only; it is the standard RFC 4648 base64 alphabet with `=`
padding, matching the source's own test vector
`"täst" ↦ "=?utf8?B?dMOkc3Q=?="`. -/

/-- The base64 alphabet: sextet value to ASCII code. -/
def b64ch (i : Nat) : Nat :=
  if i < 26 then 65 + i
  else if i < 52 then 97 + (i - 26)
  else if i < 62 then 48 + (i - 52)
  else if i = 62 then 43
  else 47

/-- Inverse of the base64 alphabet: ASCII code to sextet value. -/
def b64val (c : Nat) : Option Nat :=
  if 65 ≤ c ∧ c ≤ 90 then some (c - 65)
  else if 97 ≤ c ∧ c ≤ 122 then some (c - 97 + 26)
  else if 48 ≤ c ∧ c ≤ 57 then some (c - 48 + 52)
  else if c = 43 then some 62
  else if c = 47 then some 63
  else none

/-- Base64-encode a byte sequence (with `=` padding). -/
def b64encode : List Nat → List Nat
  | [] => []
  | [a] => [b64ch (a / 4), b64ch (a % 4 * 16), eqs, eqs]
  | [a, b] => [b64ch (a / 4), b64ch (a % 4 * 16 + b / 16), b64ch (b % 16 * 4), eqs]
  | a :: b :: c :: rest =>
      b64ch (a / 4) :: b64ch (a % 4 * 16 + b / 16) ::
      b64ch (b % 16 * 4 + c / 64) :: b64ch (c % 64) :: b64encode rest

/-- Base64-decode a byte sequence of ASCII codes; `none` on malformed data. -/
def b64decode : List Nat → Option (List Nat)
  | [] => some []
  | c1 :: c2 :: c3 :: c4 :: rest =>
    match b64val c1, b64val c2 with
    | some a, some b =>
      if c3 = eqs then
        if c4 = eqs ∧ rest = [] then some [a * 4 + b / 16] else none
      else
        match b64val c3 with
        | some c =>
          if c4 = eqs then
            if rest = [] then some [a * 4 + b / 16, b % 16 * 16 + c / 4] else none
          else
            match b64val c4 with
            | some d =>
              match b64decode rest with
              | some bs => some ((a * 4 + b / 16) :: (b % 16 * 16 + c / 4) :: (c % 4 * 64 + d) :: bs)
              | none => none
            | none => none
        | none => none
    | _, _ => none
  | _ => none

/-! ## Quoted-printable (external byte-level primitive)

Modelled from the spec: the byte-level quoted-printable primitive
(`codec::quoted_printable::encoded_word_decode` and the Q branch of
`EncodedWordEncoding::encode`) is an external collaborator specified at its
interface only; it is the RFC 2047 "Q" encoding — safe bytes literal,
everything else as `=HH` with uppercase hex, `_` decoding to space —
matching the source's own test vector `"täst" ↦ "=?utf8?Q?t=C3=A4st?="`. -/

/-- May byte `b` be emitted literally by the Q encoder?  (ASCII
alphanumerics; everything else is escaped.) -/
def isQSafe (b : Nat) : Bool :=
  (65 ≤ b && b ≤ 90) || (97 ≤ b && b ≤ 122) || (48 ≤ b && b ≤ 57)

/-- Uppercase hexadecimal digit (ASCII code) of a nibble. -/
def hexDigit (n : Nat) : Nat := if n < 10 then 48 + n else 55 + n

/-- Value of a hexadecimal digit given by ASCII code (uppercase letters). -/
def hexVal (c : Nat) : Option Nat :=
  if 48 ≤ c ∧ c ≤ 57 then some (c - 48)
  else if 65 ≤ c ∧ c ≤ 70 then some (c - 55)
  else none

/-- Q-encode a byte sequence into ASCII codes. -/
def qencode : List Nat → List Nat
  | [] => []
  | b :: bs =>
    if isQSafe b then b :: qencode bs
    else eqs :: hexDigit (b / 16) :: hexDigit (b % 16) :: qencode bs

/-- Q-decode a byte sequence of ASCII codes; `none` on malformed data
(e.g. `=` not followed by two hex digits, as in the source's
`"ab=_ups"` test). -/
def qdecode : List Nat → Option (List Nat)
  | [] => some []
  | c :: rest =>
    if c = eqs then
      match rest with
      | c1 :: c2 :: rest2 =>
        match hexVal c1, hexVal c2, qdecode rest2 with
        | some h, some l, some ds => some ((h * 16 + l) :: ds)
        | _, _, _ => none
      | _ => none
    else if c = 95 then
      match qdecode rest with
      | some ds => some (32 :: ds)
      | none => none
    else
      match qdecode rest with
      | some ds => some (c :: ds)
      | none => none

/-! ## The EncodedWord data type (`src/data/encoded_word.rs`) -/

/-- The context an encoded word targets (`grammar::encoded_word::EncodedWordContext`):
plain text, phrase, or comment. -/
inductive EncodedWordContext
  | text
  | phrase
  | comment
deriving DecidableEq, Repr

/-- `codec::EncodedWordEncoding`: the two RFC 2047 encodings. -/
inductive EncodedWordEncoding
  | base64
  | quotedPrintable
deriving DecidableEq, Repr

/-- The single-letter RFC 2047 tag of an encoding (`B` resp. `Q`), as an
ASCII code. -/
def encTag : EncodedWordEncoding → Nat
  | .base64 => 66
  | .quotedPrintable => 81

/-- `EncodedWord` (struct in `src/data/encoded_word.rs`): a validated ASCII
string (`inner`, embedded as its byte values) tagged with the context it
targets. -/
structure EncodedWord where
  inner : List Nat
  ctx : EncodedWordContext
deriving DecidableEq, Repr

/-- The `context()` accessor. -/
def EncodedWord.context (w : EncodedWord) : EncodedWordContext := w.ctx

/-- Errors surfacing from the codec, per the error taxonomy of the spec:
`decode_word`'s three structural bails are `malformed`; the charset and
encoding checks give `unsupportedCharset` resp. `unknownEncoding`; a
failure of the byte-level decode primitive propagates as
`dataDecodeFailed`; a non-UTF-8 decode result is `brokenEncoding`;
`invalidEncodedWord` is `parse`'s grammar mismatch. -/
inductive CodecError
  | invalidEncodedWord
  | malformed
  | unsupportedCharset
  | unknownEncoding
  | dataDecodeFailed
  | brokenEncoding
deriving DecidableEq, Repr

/-- The index of the first `?` in `l`, if any (Rust `str::find("?")`). -/
def findIdxQ : List Nat → Option Nat
  | [] => none
  | c :: rest => if c = qm then some 0 else (findIdxQ rest).map (· + 1)

/-- Rust `inner[start..].find("?").map(|idx| idx + start)`: index of the
first `?` at position `start` or later. -/
def findFrom (l : List Nat) (start : Nat) : Option Nat :=
  (findIdxQ (l.drop start)).map (· + start)

/-- Rust sliceAt `l[a..b]`. -/
def sliceAt (l : List Nat) (a b : Nat) : List Nat := (l.drop a).take (b - a)

/-- The field-extraction phase of `decode_word`
(`src/data/encoded_word.rs` lines 79–110): bail if the total length is
below 8; `first_question_mark` is fixed at index 1 (the `?` of the `=?`
prefix); the next two delimiters are found by scanning (bailing when
absent); the data-end boundary is `len - 2`; the charset, encoding and
data fields are the slices between those positions. -/
def parseFields (inner : List Nat) :
    Except CodecError (List Nat × List Nat × List Nat) :=
  if inner.length < 8 then .error .malformed
  else
    match findFrom inner 2 with
    | none => .error .malformed
    | some second =>
      match findFrom inner (second + 1) with
      | none => .error .malformed
      | some third =>
        .ok (sliceAt inner 2 second, sliceAt inner (second + 1) third,
             sliceAt inner (third + 1) (inner.length - 2))

/-- The byte-decoding phase of `decode_word`
(`src/data/encoded_word.rs` lines 120–128): match the encoding field
against `"B"` and `"Q"`, delegating to the corresponding byte-level
primitive; any other field is `unknownEncoding`. -/
def decodePayload (encoding data : List Nat) : Except CodecError (List Nat) :=
  if encoding = [encTag .base64] then
    match b64decode data with
    | some bs => .ok bs
    | none => .error .dataDecodeFailed
  else if encoding = [encTag .quotedPrintable] then
    match qdecode data with
    | some bs => .ok bs
    | none => .error .dataDecodeFailed
  else .error .unknownEncoding

/-- `EncodedWord::decode_word` (`src/data/encoded_word.rs` lines 78–134):
extract the fields, require charset `"utf8"`, decode the data per the
encoding tag, and require the decoded bytes to be valid UTF-8. -/
def EncodedWord.decode_word (w : EncodedWord) : Except CodecError (List Nat) :=
  match parseFields w.inner with
  | .error e => .error e
  | .ok (charset, encoding, data) =>
    if charset ≠ utf8name then .error .unsupportedCharset
    else
      match decodePayload encoding data with
      | .error e => .error e
      | .ok raw => if validUtf8 raw then .ok raw else .error .brokenEncoding

/-- The raw text of an encoded word assembled from its three fields:
`"=?" ++ charset ++ "?" ++ encoding ++ "?" ++ data ++ "?="`. -/
def mkRaw (cs e data : List Nat) : List Nat :=
  eqs :: qm :: (cs ++ qm :: (e ++ qm :: (data ++ [qm, eqs])))

/-- The word text written by `encode_word`'s writer for input bytes `bs`:
charset `utf8`, the tag of the chosen encoding, and the encoded data. -/
def mkInner (enc : EncodedWordEncoding) (bs : List Nat) : List Nat :=
  mkRaw utf8name [encTag enc] (b64orQ enc bs)
where
  /-- Dispatch to the byte-level encoder of the chosen encoding. -/
  b64orQ : EncodedWordEncoding → List Nat → List Nat
  | .base64, l => b64encode l
  | .quotedPrintable, l => qencode l

/-- `EncodedWord::encode_word` (`src/data/encoded_word.rs` lines 61–72):
encode the input through a `VecWriter` — which writes a single encoded
word; splitting over several words is explicitly unimplemented upstream —
and tag each produced ASCII string with the given context.  The context is
not consulted while producing the text (the `FIXME use the
EncodedWordContext` in `write_into`). -/
def EncodedWord.encode_word (bs : List Nat) (enc : EncodedWordEncoding)
    (ctx : EncodedWordContext) : List EncodedWord :=
  [⟨mkInner enc bs, ctx⟩]

/-- Modelled from the spec: the grammar validator
`grammar::encoded_word::is_encoded_word` is an external collaborator not
in the sources; per the spec it is a delimiter-count grammar — the text
must start with `"=?"`, end with `"?="`, and contain exactly four `?`
delimiters — accepting `"=?utf8?Q?123?="` and `"=?utf8?Qnot?abcd?="`,
rejecting `"=?utf8???Q123?="`. -/
def is_encoded_word (s : List Nat) (_ctx : EncodedWordContext) : Bool :=
  decide (s.take 2 = [eqs, qm]) &&
  decide (s.drop (s.length - 2) = [qm, eqs]) &&
  decide (s.countP (fun c => decide (c = qm)) = 4)

/-- `EncodedWord::parse` (`src/data/encoded_word.rs` lines 46–53): accept
the text as an `EncodedWord` iff the grammar validator accepts it in the
given context. -/
def EncodedWord.parse (already_encoded : List Nat) (ctx : EncodedWordContext) :
    Except CodecError EncodedWord :=
  if is_encoded_word already_encoded ctx then .ok ⟨already_encoded, ctx⟩
  else .error .invalidEncodedWord

/-! ## List helpers for the delimiter-scanning proofs -/

/-- Dropping the length of a left factor plus `k` drops into the right factor. -/
theorem drop_len_append (x r : List Nat) (k : Nat) :
    (x ++ r).drop (x.length + k) = r.drop k := by
  induction x with
  | nil => simp
  | cons a x ih =>
    rw [List.cons_append, List.length_cons,
        show x.length + 1 + k = (x.length + k) + 1 by omega,
        List.drop_succ_cons, ih]

/-- Taking the length of a left factor returns it. -/
theorem take_len_append (x r : List Nat) : (x ++ r).take x.length = x := by
  induction x with
  | nil => simp
  | cons a x ih => rw [List.cons_append, List.length_cons, List.take_succ_cons, ih]

/-- Dropping `n + 2` from a two-cons list drops `n` from its tail's tail. -/
theorem drop_cons2 (a b : Nat) (l : List Nat) (n : Nat) :
    (a :: b :: l).drop (n + 2) = l.drop n := by
  have h := drop_len_append [a, b] l n
  rw [show n + 2 = ([a, b] : List Nat).length + n by simp [Nat.add_comm]]
  exact h

/-- Scanning for `?` over `x ++ "?" ++ r` with no `?` in `x` finds index
`x.length`. -/
theorem findIdxQ_append (x r : List Nat) (h : qm ∉ x) :
    findIdxQ (x ++ qm :: r) = some x.length := by
  induction x with
  | nil => simp [findIdxQ]
  | cons a x ih =>
    have ha : a ≠ qm := fun hq => h (hq ▸ List.mem_cons_self a x)
    have hx : qm ∉ x := fun hq => h (List.mem_cons_of_mem a hq)
    rw [List.cons_append, findIdxQ, if_neg ha, ih hx]
    rfl

/-- The length of an assembled encoded word. -/
theorem mkRaw_length (cs e d : List Nat) :
    (mkRaw cs e d).length = cs.length + e.length + d.length + 6 := by
  simp [mkRaw]
  omega

/-- Field extraction on a well-shaped encoded word `=?cs?e?d?=` whose
charset and encoding fields are `?`-free recovers exactly the three
fields — the data field may contain `?` freely, since the data-end
boundary comes from the total length, not from scanning. -/
theorem parseFields_mkRaw (cs e d : List Nat) (hcs : qm ∉ cs) (he : qm ∉ e)
    (hlen : 8 ≤ (mkRaw cs e d).length) :
    parseFields (mkRaw cs e d) = .ok (cs, e, d) := by
  have hL := mkRaw_length cs e d
  have hd2 : (mkRaw cs e d).drop 2 = cs ++ qm :: (e ++ qm :: (d ++ [qm, eqs])) := by
    rw [mkRaw, drop_cons2 _ _ _ 0, List.drop_zero]
  have hf1 : findFrom (mkRaw cs e d) 2 = some (cs.length + 2) := by
    rw [findFrom, hd2, findIdxQ_append _ _ hcs, Option.map_some']
  have hd3 : (mkRaw cs e d).drop (cs.length + 2 + 1)
      = e ++ qm :: (d ++ [qm, eqs]) := by
    rw [mkRaw, show cs.length + 2 + 1 = (cs.length + 1) + 2 by omega,
        drop_cons2, show cs.length + 1 = cs.length + 1 by rfl,
        drop_len_append cs _ 1, List.drop_succ_cons, List.drop_zero]
  have hf2 : findFrom (mkRaw cs e d) (cs.length + 2 + 1)
      = some (e.length + (cs.length + 2 + 1)) := by
    rw [findFrom, hd3, findIdxQ_append _ _ he, Option.map_some']
  have hd4 : (mkRaw cs e d).drop (e.length + (cs.length + 2 + 1) + 1)
      = d ++ [qm, eqs] := by
    rw [mkRaw, show e.length + (cs.length + 2 + 1) + 1 = (cs.length + (e.length + 2)) + 2
          by omega,
        drop_cons2, drop_len_append cs _ (e.length + 2),
        show e.length + 2 = (e.length + 1) + 1 by omega,
        List.drop_succ_cons, drop_len_append e _ 1, List.drop_succ_cons, List.drop_zero]
  rw [parseFields, if_neg (by omega), hf1]
  dsimp only
  rw [hf2]
  dsimp only
  have hs1 : sliceAt (mkRaw cs e d) 2 (cs.length + 2) = cs := by
    rw [sliceAt, hd2, show cs.length + 2 - 2 = cs.length by omega, take_len_append]
  have hs2 : sliceAt (mkRaw cs e d) (cs.length + 2 + 1) (e.length + (cs.length + 2 + 1)) = e := by
    rw [sliceAt, hd3, show e.length + (cs.length + 2 + 1) - (cs.length + 2 + 1) = e.length
          by omega]
    have : e ++ qm :: (d ++ [qm, eqs]) = e ++ (qm :: (d ++ [qm, eqs])) := rfl
    rw [this, take_len_append]
  have hs3 : sliceAt (mkRaw cs e d) (e.length + (cs.length + 2 + 1) + 1)
      ((mkRaw cs e d).length - 2) = d := by
    rw [sliceAt, hd4, hL,
        show cs.length + e.length + d.length + 6 - 2 - (e.length + (cs.length + 2 + 1) + 1)
          = d.length by omega]
    have : d ++ [qm, eqs] = d ++ ([qm, eqs] : List Nat) := rfl
    rw [this, take_len_append]
  rw [hs1, hs2, hs3]

/-! ## Round-trip of the byte-level primitives -/

/-- The base64 alphabet map and its inverse compose to the identity. -/
theorem b64val_b64ch : ∀ i < 64, b64val (b64ch i) = some i := by decide

/-- No alphabet output is the padding byte `=`. -/
theorem b64ch_ne_eqs : ∀ i < 64, b64ch i ≠ eqs := by decide

/-- Decoding one full base64 chunk recovers its three source bytes. -/
theorem b64decode_chunk (a b c : Nat) (r : List Nat)
    (ha : a < 256) (hb : b < 256) (hc : c < 256) :
    b64decode (b64ch (a / 4) :: b64ch (a % 4 * 16 + b / 16) ::
               b64ch (b % 16 * 4 + c / 64) :: b64ch (c % 64) :: r)
      = (b64decode r).map (fun bs => a :: b :: c :: bs) := by
  rw [b64decode, b64val_b64ch _ (by omega), b64val_b64ch _ (by omega)]
  dsimp only
  rw [if_neg (b64ch_ne_eqs _ (by omega)), b64val_b64ch _ (by omega)]
  dsimp only
  rw [if_neg (b64ch_ne_eqs _ (by omega)), b64val_b64ch _ (by omega)]
  dsimp only
  have h1 : a / 4 * 4 + (a % 4 * 16 + b / 16) / 16 = a := by omega
  have h2 : (a % 4 * 16 + b / 16) % 16 * 16 + (b % 16 * 4 + c / 64) / 4 = b := by omega
  have h3 : (b % 16 * 4 + c / 64) % 4 * 64 + c % 64 = c := by omega
  rw [h1, h2, h3]
  cases b64decode r <;> rfl

/-- Base64 round-trip: decoding an encoded byte sequence gives it back. -/
theorem b64_roundtrip : ∀ bs : List Nat, (∀ b ∈ bs, b < 256) →
    b64decode (b64encode bs) = some bs := by
  intro bs
  induction bs using b64encode.induct with
  | case1 => intro _; rfl
  | case2 a =>
    intro h
    have ha : a < 256 := h a (by simp)
    rw [b64encode, b64decode, b64val_b64ch _ (by omega), b64val_b64ch _ (by omega)]
    dsimp only
    rw [if_pos rfl, if_pos ⟨rfl, rfl⟩, show a / 4 * 4 + a % 4 * 16 / 16 = a by omega]
  | case3 a b =>
    intro h
    have ha : a < 256 := h a (by simp)
    have hb : b < 256 := h b (by simp)
    rw [b64encode, b64decode, b64val_b64ch _ (by omega), b64val_b64ch _ (by omega)]
    dsimp only
    rw [if_neg (b64ch_ne_eqs _ (by omega)), b64val_b64ch _ (by omega)]
    dsimp only
    rw [if_pos rfl, if_pos rfl,
        show a / 4 * 4 + (a % 4 * 16 + b / 16) / 16 = a by omega,
        show (a % 4 * 16 + b / 16) % 16 * 16 + b % 16 * 4 / 4 = b by omega]
  | case4 a b c rest ih =>
    intro h
    have ha : a < 256 := h a (by simp)
    have hb : b < 256 := h b (by simp)
    have hc : c < 256 := h c (by simp)
    have ih' := ih (fun x hx => h x (by simp [hx]))
    rw [b64encode, b64decode_chunk a b c _ ha hb hc, ih', Option.map_some']

/-- The hex digit map and its inverse compose to the identity. -/
theorem hexVal_hexDigit : ∀ n < 16, hexVal (hexDigit n) = some n := by decide

/-- A Q-safe byte is neither the escape byte `=` nor the underscore. -/
theorem qsafe_ne (b : Nat) (h : isQSafe b = true) : b ≠ eqs ∧ b ≠ 95 := by
  rw [isQSafe] at h
  rw [eqs]
  simp only [Bool.or_eq_true, Bool.and_eq_true, decide_eq_true_eq] at h
  omega

/-- Quoted-printable round-trip: decoding an encoded byte sequence gives
it back. -/
theorem q_roundtrip : ∀ bs : List Nat, (∀ b ∈ bs, b < 256) →
    qdecode (qencode bs) = some bs := by
  intro bs
  induction bs with
  | nil => intro _; rfl
  | cons b bs ih =>
    intro h
    have hb : b < 256 := h b (by simp)
    have ih' := ih (fun x hx => h x (by simp [hx]))
    by_cases hs : isQSafe b
    · have hne := qsafe_ne b hs
      rw [qencode, if_pos hs, qdecode.eq_def]
      dsimp only
      rw [if_neg hne.1, if_neg hne.2, ih']
    · rw [qencode, if_neg hs, qdecode.eq_def]
      dsimp only
      rw [if_pos rfl]
      rw [hexVal_hexDigit _ (by omega), hexVal_hexDigit _ (by omega), ih']
      dsimp only
      rw [show b / 16 * 16 + b % 16 = b by omega]

/-- Decoding the single word written by `encode_word` recovers the input
bytes, for either encoding, provided the input is valid UTF-8. -/
theorem decode_mkInner (bs : List Nat) (enc : EncodedWordEncoding)
    (ctx : EncodedWordContext) (hb : ∀ b ∈ bs, b < 256) (hu : validUtf8 bs = true) :
    EncodedWord.decode_word ⟨mkInner enc bs, ctx⟩ = .ok bs := by
  have hpf : parseFields (mkInner enc bs)
      = .ok (utf8name, [encTag enc], mkInner.b64orQ enc bs) := by
    rw [mkInner]
    apply parseFields_mkRaw
    · decide
    · cases enc <;> decide
    · rw [mkRaw_length]; simp only [utf8name, List.length_cons, List.length_nil,
        List.length_singleton]; omega
  rw [EncodedWord.decode_word]
  dsimp only
  rw [hpf]
  dsimp only
  rw [if_neg (fun hne => hne rfl)]
  cases enc
  · rw [decodePayload, if_pos rfl, mkInner.b64orQ, b64_roundtrip bs hb]
    dsimp only
    rw [if_pos hu]
  · rw [decodePayload, if_neg (by decide), if_pos rfl, mkInner.b64orQ,
        q_roundtrip bs hb]
    dsimp only
    rw [if_pos hu]

/-- Propagation: a field-extraction failure is returned by `decode_word`
unchanged. -/
theorem decode_word_parse_error (inner : List Nat) (ctx : EncodedWordContext)
    (e0 : CodecError) (h : parseFields inner = .error e0) :
    EncodedWord.decode_word ⟨inner, ctx⟩ = .error e0 := by
  rw [EncodedWord.decode_word]
  dsimp only
  rw [h]

/-! ## Claim theorems for the encoded-word codec -/

/-- C2: for every printable UTF-8 text whose encoded form fits within one
encoded word, decoding the first (and only) word produced by `encode_word`
reproduces the input exactly, for Base64 and for QuotedPrintable.  Stated
for every valid-UTF-8 byte sequence (printable texts are a subset);
`encode_word` produces exactly one word, splitting being unimplemented
upstream. -/
theorem C2_encode_decode_roundtrip (bs : List Nat) (enc : EncodedWordEncoding)
    (ctx : EncodedWordContext) (hb : ∀ b ∈ bs, b < 256)
    (hu : validUtf8 bs = true) :
    (EncodedWord.encode_word bs enc ctx).head?.map EncodedWord.decode_word
      = some (Except.ok bs) := by
  rw [EncodedWord.encode_word, List.head?_cons, Option.map_some',
      decode_mkInner bs enc ctx hb hu]

theorem C2_encode_decode_roundtrip_witness :
    (EncodedWord.encode_word [116, 195, 164, 115, 116] .base64 .text).head?.map
      EncodedWord.decode_word = some (Except.ok [116, 195, 164, 115, 116]) :=
  C2_encode_decode_roundtrip [116, 195, 164, 115, 116] .base64 .text
    (by decide) (by decide)

/-- C3: `decode_word` locates the delimiters by scanning for the first `?`
after the fixed `=?` prefix, scanning for the second after the first, and
computing the data-end boundary from the total length — so on a
well-shaped word whose charset and encoding fields are `?`-free the three
fields are recovered exactly, even when the data field contains `?` — and
it fails with `malformed` when the total length is below 8 or one of the
two scanned delimiters is missing. -/
theorem C3_decode_delimiter_scan (cs e d : List Nat) (ctx : EncodedWordContext)
    (hcs : qm ∉ cs) (he : qm ∉ e) (hlen : 8 ≤ (mkRaw cs e d).length) :
    parseFields (mkRaw cs e d) = .ok (cs, e, d)
    ∧ (∀ inner : List Nat, inner.length < 8 →
        EncodedWord.decode_word ⟨inner, ctx⟩ = .error .malformed)
    ∧ (∀ inner : List Nat, 8 ≤ inner.length → findFrom inner 2 = none →
        EncodedWord.decode_word ⟨inner, ctx⟩ = .error .malformed)
    ∧ (∀ (inner : List Nat) (s : Nat), 8 ≤ inner.length →
        findFrom inner 2 = some s → findFrom inner (s + 1) = none →
        EncodedWord.decode_word ⟨inner, ctx⟩ = .error .malformed) := by
  refine ⟨parseFields_mkRaw cs e d hcs he hlen, ?_, ?_, ?_⟩
  · intro inner hsmall
    exact decode_word_parse_error _ _ _ (by rw [parseFields, if_pos hsmall])
  · intro inner hlen2 hnone
    apply decode_word_parse_error
    rw [parseFields, if_neg (by omega), hnone]
  · intro inner s hlen2 hsome hnone
    apply decode_word_parse_error
    rw [parseFields, if_neg (by omega), hsome]
    dsimp only
    rw [hnone]

theorem C3_decode_delimiter_scan_witness :
    parseFields (mkRaw utf8name [81] [97, 63, 98])
      = .ok (utf8name, [81], [97, 63, 98]) :=
  (C3_decode_delimiter_scan utf8name [81] [97, 63, 98] .text
    (by decide) (by decide) (by decide)).1

/-- C4: for every `EncodedWord` whose extracted charset field (the text
between the first and second inner delimiters) is not exactly `"utf8"`,
`decode_word` fails with `unsupportedCharset`, regardless of the encoding
and data fields. -/
theorem C4_charset_must_be_utf8 (w : EncodedWord) (cs e d : List Nat)
    (hp : parseFields w.inner = .ok (cs, e, d)) (hcs : cs ≠ utf8name) :
    w.decode_word = .error .unsupportedCharset := by
  rw [EncodedWord.decode_word, hp]
  dsimp only
  rw [if_pos hcs]

theorem C4_charset_must_be_utf8_witness :
    EncodedWord.decode_word
      ⟨[61, 63, 108, 97, 116, 105, 110, 49, 63, 81, 63, 97, 98, 63, 61], .text⟩
      = .error .unsupportedCharset :=
  C4_charset_must_be_utf8 _ [108, 97, 116, 105, 110, 49] [81] [97, 98]
    (by rfl) (by decide)

/-- C5: for every `EncodedWord` parsed with charset `"utf8"` whose encoding
field is not exactly `"B"` or `"Q"`, `decode_word` fails with
`unknownEncoding`; in particular `"=?utf8?Qnot?abcd?="` passes `parse`
(the delimiter-count grammar) but fails decode, its two-character encoding
field matching neither tag. -/
theorem C5_unknown_encoding :
    (∀ (w : EncodedWord) (e d : List Nat),
        parseFields w.inner = .ok (utf8name, e, d) →
        e ≠ [encTag .base64] → e ≠ [encTag .quotedPrintable] →
        w.decode_word = .error .unknownEncoding)
    ∧ (∃ w : EncodedWord,
        EncodedWord.parse
          [61, 63, 117, 116, 102, 56, 63, 81, 110, 111, 116, 63,
           97, 98, 99, 100, 63, 61] .text = .ok w
        ∧ w.decode_word = .error .unknownEncoding) := by
  constructor
  · intro w e d hp he1 he2
    rw [EncodedWord.decode_word, hp]
    dsimp only
    rw [if_neg (fun hne => hne rfl), decodePayload, if_neg he1, if_neg he2]
  · exact ⟨⟨[61, 63, 117, 116, 102, 56, 63, 81, 110, 111, 116, 63,
             97, 98, 99, 100, 63, 61], .text⟩, by rfl, by rfl⟩

theorem C5_unknown_encoding_witness :
    EncodedWord.decode_word
      ⟨[61, 63, 117, 116, 102, 56, 63, 81, 110, 111, 116, 63,
        97, 98, 99, 100, 63, 61], .text⟩
      = .error .unknownEncoding :=
  C5_unknown_encoding.1 _ [81, 110, 111, 116] [97, 98, 99, 100]
    (by rfl) (by decide) (by decide)

/-- C10: the textual content produced by `encode_word` is independent of
the context argument — any two contexts give word sequences with identical
inner text — and the context only tags the resulting `EncodedWord` values,
observable via the `context()` accessor. -/
theorem C10_context_only_tags (bs : List Nat) (enc : EncodedWordEncoding)
    (ca cb : EncodedWordContext) :
    (EncodedWord.encode_word bs enc ca).map EncodedWord.inner
      = (EncodedWord.encode_word bs enc cb).map EncodedWord.inner
    ∧ ∀ w ∈ EncodedWord.encode_word bs enc ca, w.context = ca := by
  constructor
  · rfl
  · intro w hw
    rw [EncodedWord.encode_word, List.mem_singleton] at hw
    rw [hw]
    rfl

theorem C10_context_only_tags_witness :
    EncodedWord.context ⟨mkInner .base64 [116], .phrase⟩ = .phrase :=
  (C10_context_only_tags [116] .base64 .phrase .comment).2
    ⟨mkInner .base64 [116], .phrase⟩ (by rw [EncodedWord.encode_word]; exact List.mem_singleton_self _)

/-! ## The resource model (`src/resource/mod.rs`) -/

/-- `headers::components::ContentId` (external): an opaque identifier
token, embedded as a string. -/
abbrev ContentId := String

/-- A resource specification (`ResourceSpec` of the external
`template_engine_prelude`): an unresolved description — source plus media
type — resolved into a `Resource` at render time. -/
structure ResourceSpec where
  source : String
  media_type : String
deriving DecidableEq, Repr

/-- `mail::file_buffer::FileBuffer` (external): a media type plus data. -/
structure FileBuffer where
  media_type : String
  data : String
deriving DecidableEq, Repr

/-- `mail::Resource` (external, modelled at its interface per the spec):
obtained by `Resource::from_spec` or `Resource::from_buffer`, both assumed
infallible at this layer. -/
inductive Resource
  | from_spec (spec : ResourceSpec)
  | from_buffer (buffer : FileBuffer)
deriving DecidableEq, Repr

/-- `headers::components::DispositionKind`, re-exported as `Disposition`. -/
inductive Disposition
  | inline
  | attachment
deriving DecidableEq, Repr

/-- The caller-supplied context as seen by one `assure_content_id` call:
`ctx.generate_content_id()` yields this value. -/
structure CidContext where
  generate_content_id : ContentId

/-- `Embedded` (struct in `src/resource/mod.rs`): content, disposition and
an optional content identifier. -/
structure Embedded where
  content_id : Option ContentId
  resource : Resource
  disposition : Disposition

/-- `Embedded::new`: no identifier yet. -/
def Embedded.new (resource : Resource) (disposition : Disposition) : Embedded :=
  ⟨none, resource, disposition⟩

/-- `Embedded::assure_content_id` (lines 59–65), state-passing: when no
identifier is present, store one freshly obtained from the context's
generator; return the updated `Embedded` together with the identifier the
Rust method returns. -/
def Embedded.assure_content_id (e : Embedded) (ctx : CidContext) :
    Embedded × ContentId :=
  match e.content_id with
  | some cid => (e, cid)
  | none => ({ e with content_id := some ctx.generate_content_id },
             ctx.generate_content_id)

/-- `EmbeddedWithCId` (struct in `src/resource/mod.rs`): a refinement of
`Embedded` produced only by identifier-guaranteeing constructors. -/
structure EmbeddedWithCId where
  inner : Embedded

/-- `EmbeddedWithCId::try_from` (lines 128–134): upgrade succeeds exactly
when an identifier is present; otherwise the original `Embedded` is the
error payload. -/
def EmbeddedWithCId.try_from (emb : Embedded) : Except Embedded EmbeddedWithCId :=
  if emb.content_id.isSome then .ok ⟨emb⟩ else .error emb

/-! ## Claim theorems for the resource model -/

/-- C7: `assure_content_id` is idempotent — when no identifier is present
the first call assigns exactly the one identifier obtained from the
generator, and every subsequent call (under any context) returns that same
identifier without changing the `Embedded`; when an identifier is already
present the call returns it and changes nothing. -/
theorem C7_assure_content_id_idempotent (e : Embedded) (ctx ctx2 : CidContext) :
    (e.content_id = none →
      (e.assure_content_id ctx).2 = ctx.generate_content_id
      ∧ (e.assure_content_id ctx).1.content_id = some ctx.generate_content_id
      ∧ (e.assure_content_id ctx).1.assure_content_id ctx2
          = ((e.assure_content_id ctx).1, (e.assure_content_id ctx).2))
    ∧ (∀ cid, e.content_id = some cid → e.assure_content_id ctx = (e, cid)) := by
  constructor
  · intro h
    simp only [Embedded.assure_content_id, h]
    exact ⟨trivial, trivial, trivial⟩
  · intro cid h
    simp only [Embedded.assure_content_id, h]

theorem C7_assure_content_id_idempotent_witness :
    ((Embedded.new (Resource.from_buffer ⟨"text/plain", "hi"⟩) .inline).assure_content_id
        ⟨"cid-1"⟩).2 = "cid-1" :=
  ((C7_assure_content_id_idempotent
      (Embedded.new (Resource.from_buffer ⟨"text/plain", "hi"⟩) .inline)
      ⟨"cid-1"⟩ ⟨"cid-2"⟩).1 rfl).1

/-- C8: `EmbeddedWithCId::try_from` succeeds iff the `Embedded` already
carries a content identifier; on failure the error payload is the original
value unchanged, and on success the wrapped value is the original. -/
theorem C8_try_from_exact (emb : Embedded) :
    ((∃ w, EmbeddedWithCId.try_from emb = .ok w) ↔ emb.content_id.isSome = true)
    ∧ (emb.content_id = none → EmbeddedWithCId.try_from emb = .error emb)
    ∧ (∀ w, EmbeddedWithCId.try_from emb = .ok w → w.inner = emb) := by
  refine ⟨⟨?_, ?_⟩, ?_, ?_⟩
  · rintro ⟨w, hw⟩
    by_contra hn
    rw [EmbeddedWithCId.try_from, if_neg hn] at hw
    exact absurd hw (by simp)
  · intro h
    exact ⟨⟨emb⟩, by rw [EmbeddedWithCId.try_from, if_pos h]⟩
  · intro h
    rw [EmbeddedWithCId.try_from, if_neg (by rw [h]; simp)]
  · intro w hw
    by_cases hs : emb.content_id.isSome = true
    · rw [EmbeddedWithCId.try_from, if_pos hs] at hw
      cases hw
      rfl
    · rw [EmbeddedWithCId.try_from, if_neg hs] at hw
      exact absurd hw (by simp)

theorem C8_try_from_exact_witness :
    EmbeddedWithCId.try_from (Embedded.new (Resource.from_buffer ⟨"text/plain", "hi"⟩) .inline)
      = .error (Embedded.new (Resource.from_buffer ⟨"text/plain", "hi"⟩) .inline) :=
  (C8_try_from_exact
      (Embedded.new (Resource.from_buffer ⟨"text/plain", "hi"⟩) .inline)).2.1 rfl

/-! ## Template specification tree (`src/render_template_engine/mod.rs`) -/

/-- An OS path (`std::path::PathBuf`), embedded as its raw bytes — not
necessarily valid UTF-8. -/
abbrev PathBuf := List Nat

/-- `SpecError` (`src/render_template_engine/error.rs`): the spec-build
error taxonomy.  External payloads (the boxed causes, `std::io::Error`)
are embedded as strings. -/
inductive SpecError
  | nonStringPath (path : PathBuf)
  | missingTypeInfo (type_info : String)
  | bodyMediaTypeCreationFailure (cause : String)
  | resourceMediaTypeCreationFailure (cause : String)
  | ioError (cause : String)
  | duplicateEmbeddingName (name : String)
  | noSubTemplatesFound (dir : PathBuf)
  | templateFileMissing (dir : PathBuf)
  | notAFile (path : PathBuf)
deriving DecidableEq, Repr

/-- Modelled from the spec: `utils::check_string_path` (module
`render_template_engine::utils`, not among the sources) validates that the
path is UTF-8-representable, failing with `NonStringPath` otherwise. -/
def check_string_path (path : PathBuf) : Except SpecError Unit :=
  if validUtf8 path then .ok () else .error (.nonStringPath path)

/-- `SubTemplateSpec` (struct in `src/render_template_engine/mod.rs`):
media type, validated UTF-8 path (stored as `String`), named embeddings
(the `HashMap` embedded as an association list) and ordered attachments. -/
structure SubTemplateSpec where
  media_type : String
  path : String
  embeddings : List (String × ResourceSpec)
  attachments : List ResourceSpec
deriving DecidableEq, Repr

/-- `TemplateSpec` (struct in `src/render_template_engine/mod.rs`):
optional base path plus the `Vec1` of sub-templates; `templates_ne` is the
`Vec1` nonemptiness invariant. -/
structure TemplateSpec where
  base_path : Option PathBuf
  templates : List SubTemplateSpec
  templates_ne : templates ≠ []

/-- `TemplateSpec::set_base_path` (lines 158–164), state-passing: validate
the new path; on success replace the stored base path and return the
previous value (the `mem::replace`); on failure return the spec unchanged
together with the error. -/
def TemplateSpec.set_base_path (spec : TemplateSpec) (new_path : PathBuf) :
    TemplateSpec × Except SpecError (Option PathBuf) :=
  match check_string_path new_path with
  | .error e => (spec, .error e)
  | .ok _ => ({ spec with base_path := some new_path }, .ok spec.base_path)

/-- C9: `set_base_path` fails with `NonStringPath` iff the new path is not
UTF-8-representable, leaving the stored spec (hence its base path)
unchanged in that case; on success it stores the new path and returns the
previous base-path value. -/
theorem C9_set_base_path (spec : TemplateSpec) (p : PathBuf) :
    ((spec.set_base_path p).2 = .error (.nonStringPath p) ↔ validUtf8 p = false)
    ∧ (validUtf8 p = false →
        spec.set_base_path p = (spec, .error (.nonStringPath p)))
    ∧ (validUtf8 p = true →
        spec.set_base_path p
          = ({ spec with base_path := some p }, .ok spec.base_path)) := by
  by_cases hv : validUtf8 p = true
  · rw [TemplateSpec.set_base_path, check_string_path, if_pos hv]
    dsimp only
    refine ⟨⟨fun h => ?_, fun h => ?_⟩, fun h => ?_, fun _ => rfl⟩
    · exact absurd h (by simp)
    · rw [hv] at h
      exact Bool.noConfusion h
    · rw [hv] at h
      exact Bool.noConfusion h
  · have hv' : validUtf8 p = false := by
      cases hb : validUtf8 p
      · rfl
      · exact absurd hb hv
    rw [TemplateSpec.set_base_path, check_string_path, if_neg hv]
    dsimp only
    refine ⟨⟨fun _ => hv', fun _ => rfl⟩, fun _ => rfl, fun h => absurd h hv⟩

/-- A concrete sub-template used by the pipeline witnesses: one embedding
and one attachment. -/
def demoSub : SubTemplateSpec :=
  ⟨"text/html", "mail.html", [("logo", ⟨"logo.png", "image/png"⟩)],
   [⟨"a.pdf", "application/pdf"⟩]⟩

/-- A concrete single-alternative template spec. -/
def demoSpec : TemplateSpec := ⟨none, [demoSub], List.cons_ne_nil _ _⟩

theorem C9_set_base_path_witness :
    demoSpec.set_base_path [255]
      = (demoSpec, .error (.nonStringPath [255])) :=
  (C9_set_base_path demoSpec [255]).2.1 rfl

/-! ## The render pipeline (`src/render_template_engine/mod.rs`) -/

/-- `core::error::Error` (the external mail-core error carried by
`CIdGenFailed`), embedded as a string. -/
abbrev MailError := String

/-- `DataWrapper` (struct in `src/render_template_engine/mod.rs`): the
composite view handed to the render engine — the name→content-id
projection of the embeddings (the `cid_mapped_serialize` serialization)
plus the caller's data. -/
structure DataWrapper (D : Type) where
  cids : List (String × ContentId)
  data : D

/-- The `RenderEngine` trait: one render call, taking the template path
and the composite data view. -/
structure RenderEngine (D RErr : Type) where
  render : String → DataWrapper D → Except RErr String

/-- `EmbeddingWithCId` (external mail-api type used by the pipeline): a
resolved resource paired with its content identifier. -/
structure EmbeddingWithCId where
  resource : Resource
  cid : ContentId

/-- `Attachment` (external mail-api type): a resource with no identifier
assigned. -/
structure Attachment where
  resource : Resource

/-- `TemplateBody` (external prelude type assembled by the pipeline):
the rendered body resource plus the embeddings map of its sub-template. -/
structure TemplateBody where
  body_resource : Resource
  embeddings : List (String × EmbeddingWithCId)

/-- `Error` (`src/render_template_engine/error.rs`): the render-pipeline
error taxonomy. -/
inductive RTError (RErr : Type)
  | unknownTemplateId (id : String)
  | cIdGenFailed (cause : MailError)
  | renderError (cause : RErr)

/-- The caller context's fallible content-id generator
(`ctx.new_content_id()`), embedded as the stream of its successive
results: the `n`-th call returns `gen n`. -/
abbrev CidGen := Nat → Except MailError ContentId

/-- `RenderTemplateEngine` (struct): one render engine plus the
template-id→spec registry (the `HashMap` embedded as an association
list). -/
structure RenderTemplateEngine (D RErr : Type) where
  render_engine : RenderEngine D RErr
  id2spec : List (String × TemplateSpec)

/-- `RenderTemplateEngine::lookup_spec` (lines 30–36). -/
def lookup_spec {D RErr : Type} (rte : RenderTemplateEngine D RErr)
    (template_id : String) : Except (RTError RErr) TemplateSpec :=
  match rte.id2spec.lookup template_id with
  | some spec => .ok spec
  | none => .error (.unknownTemplateId template_id)

/-- Step 2a of `templates` (the inner `embeddings.iter().map(...)
.collect::<Result<HashMap<_,_>,_>>()`): resolve each named embedding and
request a content identifier, threading the generator-call counter; the
first generator failure aborts the collection. -/
def processEmbeddings (gen : CidGen) :
    List (String × ResourceSpec) → Nat →
    Except MailError (List (String × EmbeddingWithCId) × Nat)
  | [], n => .ok ([], n)
  | (key, rspec) :: rest, n =>
    match gen n with
    | .error err => .error err
    | .ok cid =>
      match processEmbeddings gen rest (n + 1) with
      | .error err => .error err
      | .ok (embs, n2) => .ok ((key, ⟨Resource.from_spec rspec, cid⟩) :: embs, n2)

/-- The name→content-id projection serialized into the data view
(`cid_mapped_serialize`). -/
def cid_map (embs : List (String × EmbeddingWithCId)) :
    List (String × ContentId) :=
  embs.map (fun kv => (kv.1, kv.2.cid))

/-- Steps 2a–2d of `templates` for each sub-template in spec order (the
`try_mapped_ref` closure, lines 53–87): resolve embeddings with content
ids, render with the composite view, wrap the rendered text with the
sub-template's media type, append this sub-template's attachments to the
shared collection; the first failure aborts the whole traversal. -/
def processSubs {D RErr : Type} (re : RenderEngine D RErr) (gen : CidGen)
    (data : D) :
    List SubTemplateSpec → Nat → List Attachment →
    Except (RTError RErr) (List TemplateBody × Nat × List Attachment)
  | [], n, atts => .ok ([], n, atts)
  | t :: rest, n, atts =>
    match processEmbeddings gen t.embeddings n with
    | .error err => .error (.cIdGenFailed err)
    | .ok (embs, n2) =>
      match re.render t.path ⟨cid_map embs, data⟩ with
      | .error rerr => .error (.renderError rerr)
      | .ok rendered =>
        match processSubs re gen data rest n2
            (atts ++ t.attachments.map (fun s => ⟨Resource.from_spec s⟩)) with
        | .error err => .error err
        | .ok (bodies, n3, atts3) =>
          .ok (⟨Resource.from_buffer ⟨t.media_type, rendered⟩, embs⟩ :: bodies,
               n3, atts3)

/-- `templates` (the `TemplateEngine` impl, lines 44–90): look up the
spec, process every sub-template in spec order, and return the ordered
body list together with the combined attachments. -/
def templates {D RErr : Type} (rte : RenderTemplateEngine D RErr)
    (gen : CidGen) (template_id : String) (data : D) :
    Except (RTError RErr) (List TemplateBody × List Attachment) :=
  match lookup_spec rte template_id with
  | .error e => .error e
  | .ok spec =>
    match processSubs rte.render_engine gen data spec.templates 0 [] with
    | .error e => .error e
    | .ok (bodies, _, atts) => .ok (bodies, atts)

/-- Any error produced while traversing the sub-templates is a
`cIdGenFailed` or a `renderError`. -/
theorem processSubs_error_shape {D RErr : Type} (re : RenderEngine D RErr)
    (gen : CidGen) (data : D) :
    ∀ (subs : List SubTemplateSpec) (n : Nat) (acc : List Attachment)
      (err : RTError RErr),
      processSubs re gen data subs n acc = .error err →
      (∃ c, err = .cIdGenFailed c) ∨ (∃ r, err = .renderError r) := by
  intro subs
  induction subs with
  | nil =>
    intro n acc err h
    rw [processSubs] at h
    exact absurd h (by simp)
  | cons t rest ih =>
    intro n acc err h
    rw [processSubs] at h
    cases hpe : processEmbeddings gen t.embeddings n with
    | error c =>
      rw [hpe] at h
      simp only [Except.error.injEq] at h
      exact Or.inl ⟨c, h.symm⟩
    | ok p =>
      obtain ⟨embs, n2⟩ := p
      rw [hpe] at h
      dsimp only at h
      cases hr : re.render t.path ⟨cid_map embs, data⟩ with
      | error r =>
        rw [hr] at h
        simp only [Except.error.injEq] at h
        exact Or.inr ⟨r, h.symm⟩
      | ok rendered =>
        rw [hr] at h
        dsimp only at h
        cases hps : processSubs re gen data rest n2
            (acc ++ t.attachments.map (fun s => ⟨Resource.from_spec s⟩)) with
        | error e2 =>
          rw [hps] at h
          simp only [Except.error.injEq] at h
          exact h ▸ ih n2 _ e2 hps
        | ok trip =>
          obtain ⟨bodies, n3, atts3⟩ := trip
          rw [hps] at h
          exact absurd h (by simp)

/-- A successful traversal returns one body per sub-template, in spec
order, each built from the corresponding sub-template's rendered text and
media type. -/
theorem processSubs_ok_corr {D RErr : Type} (re : RenderEngine D RErr)
    (gen : CidGen) (data : D) :
    ∀ (subs : List SubTemplateSpec) (n : Nat) (acc : List Attachment)
      (bodies : List TemplateBody) (n3 : Nat) (atts : List Attachment),
      processSubs re gen data subs n acc = .ok (bodies, n3, atts) →
      bodies.length = subs.length ∧
      ∀ (i : Nat) (h1 : i < subs.length) (h2 : i < bodies.length),
        ∃ (dw : DataWrapper D) (txt : String),
          re.render (subs.get ⟨i, h1⟩).path dw = .ok txt ∧
          (bodies.get ⟨i, h2⟩).body_resource
            = Resource.from_buffer ⟨(subs.get ⟨i, h1⟩).media_type, txt⟩ := by
  intro subs
  induction subs with
  | nil =>
    intro n acc bodies n3 atts h
    rw [processSubs] at h
    simp only [Except.ok.injEq, Prod.mk.injEq] at h
    obtain ⟨hb, -, -⟩ := h
    subst hb
    exact ⟨rfl, fun i h1 _ => absurd h1 (by simp)⟩
  | cons t rest ih =>
    intro n acc bodies n3 atts h
    rw [processSubs] at h
    cases hpe : processEmbeddings gen t.embeddings n with
    | error c =>
      rw [hpe] at h
      exact absurd h (by simp)
    | ok p =>
      obtain ⟨embs, n2⟩ := p
      rw [hpe] at h
      dsimp only at h
      cases hr : re.render t.path ⟨cid_map embs, data⟩ with
      | error r =>
        rw [hr] at h
        exact absurd h (by simp)
      | ok rendered =>
        rw [hr] at h
        dsimp only at h
        cases hps : processSubs re gen data rest n2
            (acc ++ t.attachments.map (fun s => ⟨Resource.from_spec s⟩)) with
        | error e2 =>
          rw [hps] at h
          exact absurd h (by simp)
        | ok trip =>
          obtain ⟨bodies', n3', atts3⟩ := trip
          rw [hps] at h
          simp only [Except.ok.injEq, Prod.mk.injEq] at h
          obtain ⟨hb, -, -⟩ := h
          subst hb
          obtain ⟨ihlen, ihcorr⟩ := ih n2 _ bodies' n3' atts3 hps
          refine ⟨by simp [ihlen], ?_⟩
      
          intro i h1 h2
          cases i with
          | zero =>
            exact ⟨⟨cid_map embs, data⟩, rendered, hr, rfl⟩
          | succ j =>
            exact ihcorr j (by simpa using h1) (by simpa using h2)

/-! ## Claim theorems for the render pipeline -/

/-- C1: for a registered template spec, any failure during processing of
any sub-template makes `templates` return exactly one error — a
`cIdGenFailed` or a `renderError` — and yield no `TemplateBody` for any
sub-template of the call; moreover any sub-template processing failure
propagates as that single error. -/
theorem C1_no_partial_results {D RErr : Type} (rte : RenderTemplateEngine D RErr)
    (gen : CidGen) (template_id : String) (data : D) (spec : TemplateSpec)
    (err : RTError RErr)
    (hl : lookup_spec rte template_id = .ok spec)
    (he : templates rte gen template_id data = .error err) :
    ((∃ c, err = .cIdGenFailed c) ∨ (∃ r, err = .renderError r))
    ∧ (∀ res, templates rte gen template_id data ≠ .ok res)
    ∧ (∀ e2, processSubs rte.render_engine gen data spec.templates 0 [] = .error e2 →
        templates rte gen template_id data = .error e2) := by
  refine ⟨?_, ?_, ?_⟩
  · rw [templates, hl] at he
    dsimp only at he
    cases hps : processSubs rte.render_engine gen data spec.templates 0 [] with
    | error e2 =>
      rw [hps] at he
      simp only [Except.error.injEq] at he
      exact he ▸ processSubs_error_shape rte.render_engine gen data
        spec.templates 0 [] e2 hps
    | ok trip =>
      obtain ⟨b, m, a⟩ := trip
      rw [hps] at he
      exact absurd he (by simp)
  · intro res hok
    rw [he] at hok
    exact absurd hok (by simp)
  · intro e2 hps
    rw [templates, hl]
    dsimp only
    rw [hps]

/-- C6: every successful `templates` call returns a non-empty body list
whose order equals the order of the sub-template specs in the looked-up
`TemplateSpec`, each `TemplateBody` built from the corresponding
sub-template's rendered text and media type. -/
theorem C6_body_order {D RErr : Type} (rte : RenderTemplateEngine D RErr)
    (gen : CidGen) (template_id : String) (data : D) (spec : TemplateSpec)
    (bodies : List TemplateBody) (atts : List Attachment)
    (hl : lookup_spec rte template_id = .ok spec)
    (ht : templates rte gen template_id data = .ok (bodies, atts)) :
    bodies ≠ []
    ∧ bodies.length = spec.templates.length
    ∧ ∀ (i : Nat) (h1 : i < spec.templates.length) (h2 : i < bodies.length),
        ∃ (dw : DataWrapper D) (txt : String),
          rte.render_engine.render (spec.templates.get ⟨i, h1⟩).path dw = .ok txt ∧
          (bodies.get ⟨i, h2⟩).body_resource
            = Resource.from_buffer ⟨(spec.templates.get ⟨i, h1⟩).media_type, txt⟩ := by
  rw [templates, hl] at ht
  dsimp only at ht
  cases hps : processSubs rte.render_engine gen data spec.templates 0 [] with
  | error e =>
    rw [hps] at ht
    exact absurd ht (by simp)
  | ok trip =>
    obtain ⟨bodies', n3, atts'⟩ := trip
    rw [hps] at ht
    simp only [Except.ok.injEq, Prod.mk.injEq] at ht
    obtain ⟨hb, -⟩ := ht
    subst hb
    obtain ⟨hlen, hcorr⟩ :=
      processSubs_ok_corr rte.render_engine gen data
        spec.templates 0 [] bodies' n3 atts' hps
    refine ⟨?_, hlen, hcorr⟩
    intro hnil
    apply spec.templates_ne
    rw [hnil] at hlen
    exact List.eq_nil_of_length_eq_zero hlen.symm

/-- A registry whose render engine always fails, used by the C1 witness. -/
def failEngine : RenderTemplateEngine Unit String :=
  ⟨⟨fun _ _ => .error "render failed"⟩, [("t", demoSpec)]⟩

/-- A registry whose render engine always succeeds, used by the C6
witness. -/
def okEngine : RenderTemplateEngine Unit String :=
  ⟨⟨fun _ _ => .ok "rendered"⟩, [("t", demoSpec)]⟩

/-- A content-id generator that always succeeds. -/
def demoGen : CidGen := fun _ => .ok "cid-1"

theorem C1_no_partial_results_witness :
    templates failEngine demoGen "t" () ≠ .ok ([], []) :=
  (C1_no_partial_results failEngine demoGen "t" () demoSpec
    (.renderError "render failed") rfl rfl).2.1 ([], [])

theorem C6_body_order_witness :
    ([⟨Resource.from_buffer ⟨"text/html", "rendered"⟩,
       [("logo", ⟨Resource.from_spec ⟨"logo.png", "image/png"⟩, "cid-1"⟩)]⟩]
      : List TemplateBody).length = demoSpec.templates.length :=
  (C6_body_order okEngine demoGen "t" () demoSpec
    [⟨Resource.from_buffer ⟨"text/html", "rendered"⟩,
      [("logo", ⟨Resource.from_spec ⟨"logo.png", "image/png"⟩, "cid-1"⟩)]⟩]
    [⟨Resource.from_spec ⟨"a.pdf", "application/pdf"⟩⟩] rfl rfl).2.1
